import Mathlib

/-!
Shallow embedding of the AI Image Editor front end (src/index.tsx, together
with the `getFilteredImageFile` pipeline of the earlier variant) and proofs
of the specification claims about its filter/history/zoom subsystem.

Conventions of the embedding:
* JS numbers are modelled as `ℚ` (all arithmetic appearing in the code --
  clamping, `+`, `-`, `/`, `* 0.002` -- is exact on the values involved).
* The pixel buffer (`Uint8ClampedArray`) is a `List ℕ` of bytes; a write
  stores a clamped value, and an out-of-range write is a no-op, which is
  what `List.set` does.
* Asynchronous image decoding is modelled by folding the `onload` callback
  into the handler, with explicit parameters for the environment: whether
  `getContext('2d')` succeeded (`ctxOk`), whether the image load completed
  and fired `onload` (`loadOk`), the data URL produced by
  `canvas.toDataURL` (`dataUrl`), and a fresh token `u` standing for the
  string returned by `URL.createObjectURL`.
* Each handler that touches object URLs also returns the list of URL events
  it performs, in program order.
-/

namespace ImageEditor

/-- Model of `Math.round` of JavaScript: round half towards `+∞`, `⌊x + 1/2⌋`. -/
def jsRound (q : ℚ) : ℤ := ⌊q + 1/2⌋

/-- Storing a number into a `Uint8ClampedArray`: clamp into `[0, 255]`,
rounding ties to even. -/
def clampedStore (q : ℚ) : ℕ :=
  let f := ⌊q⌋
  let r := q - f
  let n := if r < 1/2 then f else if 1/2 < r then f + 1 else if 2 ∣ f then f else f + 1
  (max 0 (min n 255)).toNat

/-- Number of color levels of the posterize filter (src/index.tsx line 45). -/
def levels : ℕ := 4

/-- Quantization step of the posterize filter, `255 / (levels - 1)`
(src/index.tsx line 46). -/
def step : ℚ := 255 / ((levels : ℚ) - 1)

/-- One channel byte through the posterize loop body
`data[i] = Math.round(data[i] / step) * step` (src/index.tsx lines 48-50),
including the clamped store of the typed array. -/
def posterizeChannel (c : ℕ) : ℕ := clampedStore ((jsRound ((c : ℚ) / step) : ℚ) * step)

/-- Read `data[i]` from the byte buffer (out of range reads are irrelevant:
they only feed writes that are themselves out of range no-ops). -/
def readByte (data : List ℕ) (i : ℕ) : ℕ := data.getD i 0

/-- The posterize loop `for (let i = 0; i < data.length; i += 4)`
(src/index.tsx lines 47-51): at each `i` it posterizes the red, green and
blue bytes `i`, `i+1`, `i+2` and leaves the alpha byte `i+3` alone. -/
def posterizeLoop (data : List ℕ) (i : ℕ) : List ℕ :=
  if h : i < data.length then
    let d1 := data.set i (posterizeChannel (readByte data i))
    let d2 := d1.set (i + 1) (posterizeChannel (readByte d1 (i + 1)))
    let d3 := d2.set (i + 2) (posterizeChannel (readByte d2 (i + 2)))
    posterizeLoop d3 (i + 4)
  else
    data
termination_by data.length - i
decreasing_by simp_all; omega

/-- The full posterize pass over the image buffer (src/index.tsx lines 42-52). -/
def posterize (data : List ℕ) : List ℕ := posterizeLoop data 0

/-- Normal form of one posterize iteration: the three channel writes of the
loop body, with all reads taken from the original buffer (the writes at
`i`, `i+1`, `i+2` never alias the later reads, so this equals the body's
read-after-write behaviour; proved below). -/
def writeRGB (data : List ℕ) (i : ℕ) : List ℕ :=
  ((data.set i (posterizeChannel (data.getD i 0))).set (i + 1)
      (posterizeChannel (data.getD (i + 1) 0))).set (i + 2)
    (posterizeChannel (data.getD (i + 2) 0))

/-- One history entry: an image snapshot (a data URL) and the filter that
produced it (src/index.tsx lines 56-59). -/
structure HistoryState where
  imageUrl : String
  filter : String
deriving DecidableEq, Repr

/-- An uploaded `File`: its name, MIME type and an abstract content id. -/
structure JsFile where
  name : String
  mime : String
  blobId : ℕ
deriving DecidableEq, Repr

/-- The view transform: zoom scale and pan offset (src/index.tsx line 101). -/
structure Zoom where
  scale : ℚ
  x : ℚ
  y : ℚ
deriving DecidableEq, Repr

/-- Inline data carried by a response part (mime type and base64 bytes). -/
structure InlineData where
  mimeType : String
  data : String
deriving DecidableEq, Repr

/-- One part of the generative API response. -/
structure RespPart where
  inlineData : Option InlineData
deriving DecidableEq, Repr

/-- Outcome of the awaited generative call inside `handleGenerateClick`:
either a response (its `candidates[0].content.parts`), or a thrown
exception (`isError` tells whether it was an `Error` instance, `msg` its
message). -/
inductive GenOutcome where
  | success (parts : List RespPart)
  | failure (isError : Bool) (msg : String)
deriving DecidableEq, Repr

/-- An object-URL event performed by a handler. -/
inductive UrlEvent where
  | create (u : ℕ)
  | revoke (u : ℕ)
deriving DecidableEq, Repr

/-- The URLs created by a trace of URL events. -/
def createdUrls : List UrlEvent → List ℕ
  | [] => []
  | UrlEvent.create u :: tr => u :: createdUrls tr
  | UrlEvent.revoke _ :: tr => createdUrls tr

/-- The URLs revoked by a trace of URL events. -/
def revokedUrls : List UrlEvent → List ℕ
  | [] => []
  | UrlEvent.create _ :: tr => revokedUrls tr
  | UrlEvent.revoke u :: tr => u :: revokedUrls tr

/-- The react state of `App` (src/index.tsx lines 92-103), plus the mutable
ref `lastMousePosRef`. -/
structure AppState where
  baseImage : Option JsFile
  editedImageUrl : Option String
  prompt : String
  isLoading : Bool
  error : Option String
  activeFilter : String
  history : List HistoryState
  historyIndex : ℤ
  zoom : Zoom
  isPanning : Bool
  lastMouseX : ℚ
  lastMouseY : ℚ
deriving DecidableEq, Repr

/-- The initial react state (src/index.tsx lines 92-103). -/
def initialState : AppState :=
  { baseImage := none
    editedImageUrl := none
    prompt := ""
    isLoading := false
    error := none
    activeFilter := "none"
    history := []
    historyIndex := -1
    zoom := { scale := 1, x := 0, y := 0 }
    isPanning := false
    lastMouseX := 0
    lastMouseY := 0 }

/-- The lookup `history[historyIndex]` as an optional value: `undefined` exactly when
the index is out of range (src/index.tsx line 106). -/
def currentImageState (s : AppState) : Option HistoryState :=
  if h : 0 ≤ s.historyIndex ∧ s.historyIndex.toNat < s.history.length then
    some (s.history.get ⟨s.historyIndex.toNat, h.2⟩)
  else
    none

/-- The flag `canUndo = historyIndex > 0` (src/index.tsx line 108). -/
def canUndo (s : AppState) : Bool := 0 < s.historyIndex

/-- The flag `canRedo = historyIndex < history.length - 1` (src/index.tsx line 109). -/
def canRedo (s : AppState) : Bool := s.historyIndex < (s.history.length : ℤ) - 1

/-- Model of `l.slice(0, e)` of JavaScript with start 0: a negative end counts from
the end of the list. -/
def jsSliceTo (l : List HistoryState) (e : ℤ) : List HistoryState :=
  l.take (if e < 0 then ((l.length : ℤ) + e).toNat else e.toNat)

/-- The lookup `history[i]` where the caller has ensured `0 ≤ i < length`; out of
range reads yield a dummy entry (JS would yield `undefined`). -/
def histGet (l : List HistoryState) (i : ℤ) : HistoryState :=
  l.getD i.toNat { imageUrl := "", filter := "" }

/-- Handler `handleImageChange` (src/index.tsx lines 128-153) followed by its
`onload` callback, when the callback fires. -/
def handleImageChange (s : AppState) (file : Option JsFile) (ctxOk : Bool)
    (u : ℕ) (dataUrl : String) (loadOk : Bool) : AppState × List UrlEvent :=
  match file with
  | none => (s, [])
  | some f =>
    let s1 := { s with baseImage := some f, editedImageUrl := none, error := none,
                       zoom := { scale := 1, x := 0, y := 0 } }
    if ctxOk then
      if loadOk then
        ({ s1 with history := [{ imageUrl := dataUrl, filter := "none" }],
                   historyIndex := 0, activeFilter := "none" },
         [UrlEvent.create u, UrlEvent.revoke u])
      else
        (s1, [UrlEvent.create u])
    else
      (s1, [])

/-- Handler `handleFilterClick` (src/index.tsx lines 155-182) followed by its
`onload` callback, when the callback fires. -/
def handleFilterClick (s : AppState) (filter : String) (ctxOk : Bool)
    (u : ℕ) (dataUrl : String) (loadOk : Bool) : AppState × List UrlEvent :=
  if s.baseImage.isNone ∨ s.activeFilter = filter then
    (s, [])
  else
    let s1 := { s with activeFilter := filter, zoom := { scale := 1, x := 0, y := 0 } }
    if ctxOk then
      if loadOk then
        let newHistory := jsSliceTo s1.history (s1.historyIndex + 1) ++
          [{ imageUrl := dataUrl, filter := filter }]
        ({ s1 with history := newHistory, historyIndex := (newHistory.length : ℤ) - 1 },
         [UrlEvent.create u, UrlEvent.revoke u])
      else
        (s1, [UrlEvent.create u])
    else
      (s1, [])

/-- Handler `handleUndo` (src/index.tsx lines 184-191). -/
def handleUndo (s : AppState) : AppState :=
  if canUndo s then
    let newIndex := s.historyIndex - 1
    { s with historyIndex := newIndex,
             activeFilter := (histGet s.history newIndex).filter,
             zoom := { scale := 1, x := 0, y := 0 } }
  else
    s

/-- Handler `handleRedo` (src/index.tsx lines 193-200). -/
def handleRedo (s : AppState) : AppState :=
  if canRedo s then
    let newIndex := s.historyIndex + 1
    { s with historyIndex := newIndex,
             activeFilter := (histGet s.history newIndex).filter,
             zoom := { scale := 1, x := 0, y := 0 } }
  else
    s

/-- The downward scan `for (let i = parts.length - 1; i >= 0; i--)` over
the response parts (src/index.tsx lines 230-240); the argument `n` is the
number of indices left to visit, so the scan starts at `n = parts.length`
and visits `n - 1` first. -/
def scanFromEnd (parts : List RespPart) : ℕ → Option InlineData
  | 0 => none
  | n + 1 =>
    match (parts.getD n { inlineData := none }).inlineData with
    | some d => some d
    | none => scanFromEnd parts n

/-- The inline payload the generate handler displays: the scan of the
response parts from last to first. -/
def findInlineFromEnd (parts : List RespPart) : Option InlineData :=
  scanFromEnd parts parts.length

/-- Spec-side description of the same search, from the spec's words: the
last part in order that carries inline data. -/
def lastInlineSpec (parts : List RespPart) : Option InlineData :=
  match parts.reverse.find? (fun p => p.inlineData.isSome) with
  | some p => p.inlineData
  | none => none

/-- Model of `String.prototype.trim` of JavaScript: strip leading and trailing
whitespace (modelled over the character list so that it evaluates). -/
def jsTrim (s : String) : String :=
  String.mk (((s.data.dropWhile Char.isWhitespace).reverse.dropWhile Char.isWhitespace).reverse)

/-- The data URL built for a found inline payload (src/index.tsx line 234). -/
def mkDataUrl (d : InlineData) : String :=
  "data:" ++ d.mimeType ++ ";base64," ++ d.data

/-- Handler `handleGenerateClick` (src/index.tsx lines 202-253) with the awaited
network call abstracted into its outcome. -/
def handleGenerateClick (s : AppState) (outcome : GenOutcome) : AppState :=
  if s.baseImage.isNone ∨ (currentImageState s).isNone ∨ jsTrim s.prompt = "" then
    { s with error := some "Please upload an image and enter a prompt." }
  else
    let s1 := { s with isLoading := true, error := none, editedImageUrl := none }
    let s2 :=
      match outcome with
      | GenOutcome.success parts =>
        match findInlineFromEnd parts with
        | some d =>
          { s1 with editedImageUrl := some (mkDataUrl d),
                    zoom := { scale := 1, x := 0, y := 0 } }
        | none =>
          { s1 with error := some "No image was generated. Please try a different prompt." }
      | GenOutcome.failure isError msg =>
        { s1 with error := some ("Failed to generate image. " ++
            (if isError then msg else "An unexpected error occurred.")) }
    { s2 with isLoading := false }

/-- Handler `handleReset` (src/index.tsx lines 255-267). -/
def handleReset (s : AppState) : AppState :=
  { s with baseImage := none, editedImageUrl := none, prompt := "", error := none,
           activeFilter := "none", history := [], historyIndex := -1,
           zoom := { scale := 1, x := 0, y := 0 } }

/-- Helper `setZoomLevel` (src/index.tsx lines 279-287). -/
def setZoomLevel (z : Zoom) (newScale : ℚ) : Zoom :=
  let clampedScale := max 1 (min newScale 10)
  if clampedScale = 1 then
    { scale := 1, x := 0, y := 0 }
  else
    { z with scale := clampedScale }

/-- Handler `handleZoomButtons` (src/index.tsx lines 289-291). -/
def handleZoomButtons (s : AppState) (delta : ℚ) : AppState :=
  { s with zoom := setZoomLevel s.zoom (s.zoom.scale + delta) }

/-- Handler `handleScaleChange`, from the zoom slider (src/index.tsx lines 293-295). -/
def handleScaleChange (s : AppState) (newScale : ℚ) : AppState :=
  { s with zoom := setZoomLevel s.zoom newScale }

/-- Handler `handleWheel` (src/index.tsx lines 297-301): `zoomAmount = -deltaY * 0.002`. -/
def handleWheel (s : AppState) (deltaY : ℚ) : AppState :=
  { s with zoom := setZoomLevel s.zoom (s.zoom.scale + (-deltaY) * (2 / 1000)) }

/-- The zoom reset button `onReset={() => setZoom({scale: 1, x: 0, y: 0})}`
(src/index.tsx lines 953 and 979). -/
def handleZoomReset (s : AppState) : AppState :=
  { s with zoom := { scale := 1, x := 0, y := 0 } }

/-- Handler `handleMouseDown` (src/index.tsx lines 303-308): `onImage` tells
whether `e.target` is an `HTMLImageElement`. -/
def handleMouseDown (s : AppState) (mx my : ℚ) (onImage : Bool) : AppState :=
  if s.zoom.scale ≤ 1 ∨ ¬onImage then
    s
  else
    { s with lastMouseX := mx, lastMouseY := my, isPanning := true }

/-- The `handleMouseMove` listener installed during a drag
(src/index.tsx lines 310-319). -/
def handleMouseMove (s : AppState) (mx my : ℚ) : AppState :=
  let dx := mx - s.lastMouseX
  let dy := my - s.lastMouseY
  { s with lastMouseX := mx, lastMouseY := my,
           zoom := { s.zoom with x := s.zoom.x + dx / s.zoom.scale,
                                 y := s.zoom.y + dy / s.zoom.scale } }

/-- The `handleMouseUp` listener installed during a drag
(src/index.tsx lines 321-325). -/
def handleMouseUp (s : AppState) : AppState :=
  { s with isPanning := false }

/-- Typing into the prompt textarea (src/index.tsx line 886). -/
def handleSetPrompt (s : AppState) (p : String) : AppState :=
  { s with prompt := p }

/-- Function `getFilteredImageFile` of the earlier variant
(src/unnamed/part_001 lines 64-115), with its `onload` folded in; returns
the promise outcome and the URL events performed. -/
def getFilteredImageFile (activeFilter : String) (originalImage : Option JsFile)
    (ctxOk : Bool) (u : ℕ) (blobOk : Bool) (loadOk : Bool) :
    Except String JsFile × List UrlEvent :=
  match originalImage with
  | some f =>
    if activeFilter = "none" then
      (Except.ok f, [])
    else if ¬ctxOk then
      (Except.error "Could not get canvas context", [])
    else if loadOk then
      (if blobOk then Except.ok { f with blobId := f.blobId + 1 }
       else Except.error "Canvas toBlob failed",
       [UrlEvent.create u, UrlEvent.revoke u])
    else
      (Except.error "image load failed", [UrlEvent.create u])
  | none => (Except.error "No image to filter", [])

/-- One UI event applied to the state: the reachable-state relation closes
`initialState` under every handler of the app. `mouseMove` and `mouseUp`
require `isPanning`, since those listeners only exist during a drag. -/
inductive Reachable : AppState → Prop where
  | init : Reachable initialState
  | upload (s : AppState) (file : Option JsFile) (ctxOk : Bool) (u : ℕ)
      (dataUrl : String) (loadOk : Bool) : Reachable s →
      Reachable (handleImageChange s file ctxOk u dataUrl loadOk).1
  | filter (s : AppState) (name : String) (ctxOk : Bool) (u : ℕ)
      (dataUrl : String) (loadOk : Bool) : Reachable s →
      Reachable (handleFilterClick s name ctxOk u dataUrl loadOk).1
  | undo (s : AppState) : Reachable s → Reachable (handleUndo s)
  | redo (s : AppState) : Reachable s → Reachable (handleRedo s)
  | generate (s : AppState) (outcome : GenOutcome) : Reachable s →
      Reachable (handleGenerateClick s outcome)
  | reset (s : AppState) : Reachable s → Reachable (handleReset s)
  | zoomButtons (s : AppState) (delta : ℚ) : Reachable s →
      Reachable (handleZoomButtons s delta)
  | scaleChange (s : AppState) (v : ℚ) : Reachable s →
      Reachable (handleScaleChange s v)
  | wheel (s : AppState) (deltaY : ℚ) : Reachable s →
      Reachable (handleWheel s deltaY)
  | zoomReset (s : AppState) : Reachable s → Reachable (handleZoomReset s)
  | mouseDown (s : AppState) (mx my : ℚ) (onImage : Bool) : Reachable s →
      Reachable (handleMouseDown s mx my onImage)
  | mouseMove (s : AppState) (mx my : ℚ) : s.isPanning = true → Reachable s →
      Reachable (handleMouseMove s mx my)
  | mouseUp (s : AppState) : Reachable s → Reachable (handleMouseUp s)
  | setPrompt (s : AppState) (p : String) : Reachable s →
      Reachable (handleSetPrompt s p)

/-- The view-transform invariant: the scale stays in `[1, 10]`, and at
scale 1 the pan offset is `(0, 0)`. -/
def zoomInv (z : Zoom) : Prop :=
  1 ≤ z.scale ∧ z.scale ≤ 10 ∧ (z.scale = 1 → z.x = 0 ∧ z.y = 0)

/-- The history-index invariant: the index is `-1` exactly when the history
is empty, and otherwise lies within the list's bounds. -/
def histInv (s : AppState) : Prop :=
  (s.historyIndex = -1 ↔ s.history = []) ∧
  (s.history ≠ [] → 0 ≤ s.historyIndex ∧ s.historyIndex ≤ (s.history.length : ℤ) - 1)

/-- A sample uploaded file, used to instantiate the theorems. -/
def sampleFile : JsFile := { name := "photo.png", mime := "image/png", blobId := 0 }

/-- A sample state right after a successful upload, with a prompt typed in. -/
def sampleState1 : AppState :=
  { initialState with
      baseImage := some sampleFile
      history := [{ imageUrl := "u0", filter := "none" }]
      historyIndex := 0
      prompt := "add a hat" }

/-- A sample state after an upload and one filter application. -/
def sampleState2 : AppState :=
  { sampleState1 with
      history := [{ imageUrl := "u0", filter := "none" },
                  { imageUrl := "u1", filter := "sepia" }]
      historyIndex := 1
      activeFilter := "sepia" }

/-- A concrete run: upload, wheel-zoom in to scale 2, start a pan drag,
wheel-zoom back out to scale 1 while the drag is active, then move the
mouse by 4 pixels. -/
def dragState : AppState :=
  handleMouseDown
    (handleWheel (handleImageChange initialState (some sampleFile) true 0 "u0" true).1 (-500))
    10 10 true

/-- The state at the end of the run described at `dragState`. -/
def cexState : AppState :=
  handleMouseMove (handleWheel dragState 500) 14 10

/-- C1: applying a new filter truncates the history to its first `i + 1`
entries, appends one new snapshot pair, and sets the index to the last
position of the new list, so no redo entries survive a new edit. -/
theorem filterClick_truncates_appends (s : AppState) (f : JsFile) (name : String)
    (u : ℕ) (d : String)
    (hbase : s.baseImage = some f) (hnew : s.activeFilter ≠ name)
    (hlo : 0 ≤ s.historyIndex) (_hhi : s.historyIndex ≤ (s.history.length : ℤ) - 1) :
    (handleFilterClick s name true u d true).1.history =
      s.history.take (s.historyIndex.toNat + 1) ++ [{ imageUrl := d, filter := name }] ∧
    (handleFilterClick s name true u d true).1.historyIndex =
      ((handleFilterClick s name true u d true).1.history.length : ℤ) - 1 := by
  have h1 : ¬ s.historyIndex + 1 < 0 := by omega
  have h2 : (s.historyIndex + 1).toNat = s.historyIndex.toNat + 1 := by omega
  simp [handleFilterClick, hbase, hnew, jsSliceTo, h1, h2]

/-- C1 witness: instantiation at a concrete one-entry history. -/
theorem filterClick_truncates_appends_witness :
    (handleFilterClick sampleState1 "sepia" true 1 "u1" true).1.history =
      sampleState1.history.take (sampleState1.historyIndex.toNat + 1) ++
        [{ imageUrl := "u1", filter := "sepia" }] ∧
    (handleFilterClick sampleState1 "sepia" true 1 "u1" true).1.historyIndex =
      ((handleFilterClick sampleState1 "sepia" true 1 "u1" true).1.history.length : ℤ) - 1 :=
  filterClick_truncates_appends sampleState1 sampleFile "sepia" 1 "u1"
    (by decide) (by decide) (by decide) (by decide)

/-- C3: undo and redo move only the history index -- undo subtracts one
exactly when the index is positive, redo adds one exactly when the index is
below `length - 1`, and neither ever changes the history list. -/
theorem undoRedo_move_only_index (s : AppState) :
    (handleUndo s).history = s.history ∧
    (handleRedo s).history = s.history ∧
    (0 < s.historyIndex → (handleUndo s).historyIndex = s.historyIndex - 1) ∧
    (¬ 0 < s.historyIndex → handleUndo s = s) ∧
    (s.historyIndex < (s.history.length : ℤ) - 1 →
      (handleRedo s).historyIndex = s.historyIndex + 1) ∧
    (¬ s.historyIndex < (s.history.length : ℤ) - 1 → handleRedo s = s) := by
  refine ⟨?_, ?_, ?_, ?_, ?_, ?_⟩
  · cases h : canUndo s <;> simp [handleUndo, h]
  · cases h : canRedo s <;> simp [handleRedo, h]
  · intro h; simp [handleUndo, canUndo, h]
  · intro h; simp [handleUndo, canUndo, h]
  · intro h; simp [handleRedo, canRedo, h]
  · intro h; simp [handleRedo, canRedo, h]

/-- C3 witness: instantiation at a concrete two-entry history. -/
theorem undoRedo_move_only_index_witness :
    (handleUndo sampleState2).history = sampleState2.history ∧
    (handleUndo sampleState2).historyIndex = sampleState2.historyIndex - 1 ∧
    (handleRedo sampleState2) = sampleState2 :=
  ⟨(undoRedo_move_only_index sampleState2).1,
   (undoRedo_move_only_index sampleState2).2.2.1 (by decide),
   (undoRedo_move_only_index sampleState2).2.2.2.2.2 (by decide)⟩

/-- C5: when the generative call throws, the handler surfaces
`Failed to generate image. ` followed by the exception message (or the
fixed fallback for non-Error values), clears the loading flag, and leaves
the uploaded image, the history list, the history index and the prompt
unchanged. -/
theorem generate_failure_surfaces_message (s : AppState) (isError : Bool) (msg : String)
    (hbase : s.baseImage.isNone = false)
    (hcur : (currentImageState s).isNone = false)
    (hprompt : jsTrim s.prompt ≠ "") :
    (handleGenerateClick s (GenOutcome.failure isError msg)).error =
      some ("Failed to generate image. " ++
        (if isError then msg else "An unexpected error occurred.")) ∧
    (handleGenerateClick s (GenOutcome.failure isError msg)).isLoading = false ∧
    (handleGenerateClick s (GenOutcome.failure isError msg)).baseImage = s.baseImage ∧
    (handleGenerateClick s (GenOutcome.failure isError msg)).history = s.history ∧
    (handleGenerateClick s (GenOutcome.failure isError msg)).historyIndex = s.historyIndex ∧
    (handleGenerateClick s (GenOutcome.failure isError msg)).prompt = s.prompt := by
  simp [handleGenerateClick, hbase, hcur, hprompt]

/-- C5 witness: instantiation at a concrete state, one Error and one
non-Error outcome. -/
theorem generate_failure_surfaces_message_witness :
    (handleGenerateClick sampleState1 (GenOutcome.failure true "quota exceeded")).error =
      some ("Failed to generate image. " ++
        (if true then "quota exceeded" else "An unexpected error occurred.")) ∧
    (handleGenerateClick sampleState1 (GenOutcome.failure true "quota exceeded")).history =
      sampleState1.history :=
  ⟨(generate_failure_surfaces_message sampleState1 true "quota exceeded"
      (by decide) (by decide) (by decide)).1,
   (generate_failure_surfaces_message sampleState1 true "quota exceeded"
      (by decide) (by decide) (by decide)).2.2.2.1⟩

/-- C7: a pan drag starts only when the scale is above 1 and the pointer is
on the image; each move shifts the pan offset by exactly
`(dx / scale, dy / scale)` and never changes the scale. -/
theorem pan_arithmetic (s : AppState) (mx my : ℚ) (onImage : Bool) :
    (s.zoom.scale ≤ 1 ∨ onImage = false → handleMouseDown s mx my onImage = s) ∧
    (1 < s.zoom.scale → onImage = true →
      handleMouseDown s mx my onImage =
        { s with lastMouseX := mx, lastMouseY := my, isPanning := true }) ∧
    (handleMouseMove s mx my).zoom.x = s.zoom.x + (mx - s.lastMouseX) / s.zoom.scale ∧
    (handleMouseMove s mx my).zoom.y = s.zoom.y + (my - s.lastMouseY) / s.zoom.scale ∧
    (handleMouseMove s mx my).zoom.scale = s.zoom.scale := by
  refine ⟨?_, ?_, rfl, rfl, rfl⟩
  · intro h
    rcases h with h | h
    · simp [handleMouseDown, h]
    · simp [handleMouseDown, h]
  · intro h1 h2
    simp [handleMouseDown, h2, not_le.mpr h1]

/-- C7 witness: instantiation during the concrete drag of `dragState`. -/
theorem pan_arithmetic_witness :
    handleMouseDown initialState 10 10 true = initialState ∧
    (handleMouseMove dragState 14 10).zoom.x =
      dragState.zoom.x + ((14 : ℚ) - dragState.lastMouseX) / dragState.zoom.scale ∧
    (handleMouseMove dragState 14 10).zoom.scale = dragState.zoom.scale :=
  ⟨(pan_arithmetic initialState 10 10 true).1 (Or.inl (by decide)),
   (pan_arithmetic dragState 14 10 true).2.2.1,
   (pan_arithmetic dragState 14 10 true).2.2.2.2⟩

/-- C8: for each operation that creates an object URL -- upload, filter
click, and the `getFilteredImageFile` pipeline -- once the image `onload`
callback has completed, the URLs created and the URLs revoked by the
operation coincide, so nothing remains unreleased. -/
theorem object_urls_released (s : AppState) (file : Option JsFile) (name : String)
    (ctxOk : Bool) (u : ℕ) (d : String) (af : String) (oi : Option JsFile)
    (blobOk : Bool) :
    createdUrls (handleImageChange s file ctxOk u d true).2 =
      revokedUrls (handleImageChange s file ctxOk u d true).2 ∧
    createdUrls (handleFilterClick s name ctxOk u d true).2 =
      revokedUrls (handleFilterClick s name ctxOk u d true).2 ∧
    createdUrls (getFilteredImageFile af oi ctxOk u blobOk true).2 =
      revokedUrls (getFilteredImageFile af oi ctxOk u blobOk true).2 := by
  refine ⟨?_, ?_, ?_⟩
  · cases file with
    | none => simp [handleImageChange, createdUrls, revokedUrls]
    | some f =>
      simp only [handleImageChange]
      split_ifs <;> simp [createdUrls, revokedUrls]
  · simp only [handleFilterClick]
    split_ifs <;> simp [createdUrls, revokedUrls]
  · cases oi with
    | none => simp [getFilteredImageFile, createdUrls, revokedUrls]
    | some f =>
      simp only [getFilteredImageFile]
      split_ifs <;> simp [createdUrls, revokedUrls]

/-- C10: clicking the already-active filter, or any filter with no image
uploaded, is a complete no-op, and a second click of the same filter is
always a no-op, so repeated clicks push at most one history entry. -/
theorem filterClick_noop_when_inactive (s : AppState) (name : String) (ctxOk : Bool)
    (u : ℕ) (d : String) (loadOk : Bool) :
    (s.baseImage = none → handleFilterClick s name ctxOk u d loadOk = (s, [])) ∧
    (s.activeFilter = name → handleFilterClick s name ctxOk u d loadOk = (s, [])) ∧
    (∀ ctxOk2 u2 d2 loadOk2,
      handleFilterClick (handleFilterClick s name ctxOk u d loadOk).1 name
          ctxOk2 u2 d2 loadOk2 =
        ((handleFilterClick s name ctxOk u d loadOk).1, [])) := by
  refine ⟨?_, ?_, ?_⟩
  · intro h; simp [handleFilterClick, h]
  · intro h; simp [handleFilterClick, h]
  · intro ctxOk2 u2 d2 loadOk2
    by_cases hg : s.baseImage = none ∨ s.activeFilter = name
    · have hfst : (handleFilterClick s name ctxOk u d loadOk).1 = s := by
        simp [handleFilterClick, hg]
      rw [hfst]
      simp [handleFilterClick, hg]
    · have hg' : ¬(s.baseImage.isNone = true ∨ s.activeFilter = name) := by
        simpa [Option.isNone_iff_eq_none] using hg
      have hact : (handleFilterClick s name ctxOk u d loadOk).1.activeFilter = name := by
        simp only [handleFilterClick, if_neg hg']
        split_ifs <;> rfl
      generalize (handleFilterClick s name ctxOk u d loadOk).1 = t at hact ⊢
      simp [handleFilterClick, hact]

/-- C10 witness: instantiation at a concrete state whose active filter is
already `sepia`, and at a repeated click. -/
theorem filterClick_noop_when_inactive_witness :
    handleFilterClick sampleState2 "sepia" true 2 "u2" true = (sampleState2, []) ∧
    handleFilterClick initialState "sepia" true 2 "u2" true = (initialState, []) :=
  ⟨(filterClick_noop_when_inactive sampleState2 "sepia" true 2 "u2" true).2.1 (by decide),
   (filterClick_noop_when_inactive initialState "sepia" true 2 "u2" true).1 (by decide)⟩

theorem scanFromEnd_take (parts : List RespPart) :
    ∀ n, n ≤ parts.length →
      scanFromEnd parts n =
        (match (parts.take n).reverse.find? (fun p => p.inlineData.isSome) with
          | some p => p.inlineData
          | none => none) := by
  intro n
  induction n with
  | zero => intro _; simp [scanFromEnd]
  | succ m ih =>
    intro h
    have hm : m < parts.length := by omega
    have hget : parts.getD m { inlineData := none } = parts[m] := by
      simp [List.getD_eq_getElem?_getD, List.getElem?_eq_getElem hm]
    have htake : (parts.take (m + 1)).reverse =
        parts[m] :: (parts.take m).reverse := by
      rw [List.take_succ]
      simp [List.getElem?_eq_getElem hm]
    rw [scanFromEnd, hget, htake]
    cases hd : parts[m].inlineData with
    | some dd => simp [List.find?, hd]
    | none =>
      simp only [List.find?, hd, Option.isSome_none]
      exact ih (by omega)

theorem findInlineFromEnd_eq_spec (parts : List RespPart) :
    findInlineFromEnd parts = lastInlineSpec parts := by
  have h := scanFromEnd_take parts parts.length le_rfl
  rw [findInlineFromEnd, lastInlineSpec]
  simpa [List.take_length] using h

theorem lastInlineSpec_eq_none (parts : List RespPart)
    (h : ∀ p ∈ parts, p.inlineData = none) : lastInlineSpec parts = none := by
  have hf : parts.reverse.find? (fun p => p.inlineData.isSome) = none := by
    rw [List.find?_eq_none]
    intro x hx
    simp [h x (List.mem_reverse.mp hx)]
  simp [lastInlineSpec, hf]

/-- C6: on a successful generative call the handler displays the last
response part that carries inline data, as a data URL built from its mime
type and base64 bytes; when no part carries inline data it leaves the
edited image unset and reports that no image was generated. -/
theorem generate_success_displays_last_inline (s : AppState) (parts : List RespPart)
    (hbase : s.baseImage.isNone = false)
    (hcur : (currentImageState s).isNone = false)
    (hprompt : jsTrim s.prompt ≠ "") :
    (handleGenerateClick s (GenOutcome.success parts)).editedImageUrl =
      Option.map mkDataUrl (lastInlineSpec parts) ∧
    ((∀ p ∈ parts, p.inlineData = none) →
      (handleGenerateClick s (GenOutcome.success parts)).editedImageUrl = none ∧
      (handleGenerateClick s (GenOutcome.success parts)).error =
        some "No image was generated. Please try a different prompt.") := by
  have hfind := findInlineFromEnd_eq_spec parts
  constructor
  · simp only [handleGenerateClick, hbase, hcur, hprompt, hfind]
    cases hsp : lastInlineSpec parts <;> simp [hsp]
  · intro hall
    have hnone := lastInlineSpec_eq_none parts hall
    simp [handleGenerateClick, hbase, hcur, hprompt, hfind, hnone]

/-- C6 witness: instantiation at a concrete two-part response whose last
part carries inline data, and a response with no inline data. -/
theorem generate_success_displays_last_inline_witness :
    (handleGenerateClick sampleState1 (GenOutcome.success
        [{ inlineData := none },
         { inlineData := some { mimeType := "image/png", data := "QUJD" } }])).editedImageUrl =
      Option.map mkDataUrl (lastInlineSpec
        [{ inlineData := none },
         { inlineData := some { mimeType := "image/png", data := "QUJD" } }]) ∧
    (handleGenerateClick sampleState1 (GenOutcome.success
        [({ inlineData := none } : RespPart)])).error =
      some "No image was generated. Please try a different prompt." :=
  ⟨(generate_success_displays_last_inline sampleState1 _
      (by decide) (by decide) (by decide)).1,
   ((generate_success_displays_last_inline sampleState1 [{ inlineData := none }]
      (by decide) (by decide) (by decide)).2 (by decide)).2⟩

theorem zoomInv_one : zoomInv { scale := 1, x := 0, y := 0 } := by
  refine ⟨le_refl 1, by norm_num, fun _ => ⟨rfl, rfl⟩⟩

theorem zoomInv_setZoomLevel (z : Zoom) (v : ℚ) : zoomInv (setZoomLevel z v) := by
  simp only [setZoomLevel]
  split_ifs with h
  · exact zoomInv_one
  · exact ⟨le_max_left _ _, max_le (by norm_num) (min_le_right _ _),
      fun hc => absurd hc h⟩

/-- C4 (amended): `setZoomLevel` clamps every requested scale into
`[1, 10]` and resets the pan offset whenever the clamped scale is 1, and
the view-transform invariant is preserved by upload, filter, undo, redo,
reset, the zoom buttons, the slider and the wheel; it is however not
preserved by pan mouse-moves, which write the pan offset without
re-checking the scale (see the counterexample). -/
theorem zoom_invariant_preserved (s : AppState) (file : Option JsFile) (ctxOk : Bool)
    (u : ℕ) (d : String) (loadOk : Bool) (name : String) (delta v deltaY : ℚ)
    (hs : zoomInv s.zoom) :
    (setZoomLevel s.zoom v).scale = max 1 (min v 10) ∧
    zoomInv (setZoomLevel s.zoom v) ∧
    zoomInv (handleImageChange s file ctxOk u d loadOk).1.zoom ∧
    zoomInv (handleFilterClick s name ctxOk u d loadOk).1.zoom ∧
    zoomInv (handleUndo s).zoom ∧
    zoomInv (handleRedo s).zoom ∧
    zoomInv (handleReset s).zoom ∧
    zoomInv (handleZoomButtons s delta).zoom ∧
    zoomInv (handleScaleChange s v).zoom ∧
    zoomInv (handleWheel s deltaY).zoom := by
  refine ⟨?_, zoomInv_setZoomLevel _ _, ?_, ?_, ?_, ?_, zoomInv_one,
    zoomInv_setZoomLevel _ _, zoomInv_setZoomLevel _ _, zoomInv_setZoomLevel _ _⟩
  · simp only [setZoomLevel]
    split_ifs with h
    · exact h.symm
    · rfl
  · cases file with
    | none => exact hs
    | some f =>
      simp only [handleImageChange]
      split_ifs <;> exact zoomInv_one
  · by_cases hg : s.baseImage.isNone = true ∨ s.activeFilter = name
    · simp only [handleFilterClick, if_pos hg]
      exact hs
    · simp only [handleFilterClick, if_neg hg]
      split_ifs <;> exact zoomInv_one
  · unfold handleUndo
    split_ifs
    · exact zoomInv_one
    · exact hs
  · unfold handleRedo
    split_ifs
    · exact zoomInv_one
    · exact hs

/-- C4 witness: instantiation at the initial state and a wheel event. -/
theorem zoom_invariant_preserved_witness :
    zoomInv initialState.zoom ∧ zoomInv (handleWheel initialState 100).zoom :=
  ⟨zoomInv_one,
   (zoom_invariant_preserved initialState none true 0 "" true "sepia" 1 5 100
      zoomInv_one).2.2.2.2.2.2.2.2.2⟩

/-- C4 counterexample: the view-transform invariant claimed for every
reachable state fails. A drag is started at scale 2, the wheel brings the
scale back to 1 (resetting the pan) while the drag is still active, and the
next mouse move writes a nonzero pan offset at scale 1. -/
theorem zoom_invariant_cex :
    ¬ ∀ s : AppState, Reachable s →
        1 ≤ s.zoom.scale ∧ s.zoom.scale ≤ 10 ∧
        (s.zoom.scale = 1 → s.zoom.x = 0 ∧ s.zoom.y = 0) := by
  intro hall
  have hds : dragState =
      { initialState with
          baseImage := some sampleFile
          history := [{ imageUrl := "u0", filter := "none" }]
          historyIndex := 0
          zoom := { scale := 2, x := 0, y := 0 }
          isPanning := true
          lastMouseX := 10
          lastMouseY := 10 } := by
    norm_num [dragState, handleMouseDown, handleWheel, setZoomLevel,
      handleImageChange, initialState, min_def, max_def]
  have hw : handleWheel dragState 500 =
      { dragState with zoom := { scale := 1, x := 0, y := 0 } } := by
    rw [hds]
    norm_num [handleWheel, setZoomLevel, min_def, max_def]
  have h1 : Reachable dragState :=
    Reachable.mouseDown _ 10 10 true
      (Reachable.wheel _ (-500)
        (Reachable.upload initialState (some sampleFile) true 0 "u0" true Reachable.init))
  have h2 : Reachable cexState :=
    Reachable.mouseMove _ 14 10 (by rw [hw]; simp [hds]) (Reachable.wheel _ 500 h1)
  have h3 := hall cexState h2
  have hscale : cexState.zoom.scale = 1 := by
    unfold cexState
    rw [hw]
    rfl
  have hx : cexState.zoom.x = 4 := by
    unfold cexState
    rw [hw, hds]
    norm_num [handleMouseMove]
  have hx0 : ¬ cexState.zoom.x = 0 := by
    rw [hx]
    norm_num
  exact hx0 (h3.2.2 hscale).1

theorem histInv_of_eq {s t : AppState} (hh : t.history = s.history)
    (hi : t.historyIndex = s.historyIndex) (h : histInv s) : histInv t := by
  unfold histInv at *
  rw [hh, hi]
  exact h

/-- C9: in every reachable state the history index is `-1` exactly when
the history is empty, and otherwise lies between 0 and `length - 1`, so
`history[historyIndex]` never reads out of bounds when the history is
non-empty. -/
theorem history_index_invariant (s : AppState) (h : Reachable s) : histInv s := by
  induction h with
  | init => exact ⟨by simp [initialState], by simp [initialState]⟩
  | upload s file ctxOk u dataUrl loadOk hr ih =>
    cases file with
    | none => exact ih
    | some f =>
      simp only [handleImageChange]
      split_ifs
      · exact ⟨by simp, fun _ => by simp⟩
      · exact histInv_of_eq rfl rfl ih
      · exact histInv_of_eq rfl rfl ih
  | filter s name ctxOk u dataUrl loadOk hr ih =>
    by_cases hg : s.baseImage.isNone = true ∨ s.activeFilter = name
    · simp only [handleFilterClick, if_pos hg]
      exact ih
    · simp only [handleFilterClick, if_neg hg]
      split_ifs
      · refine ⟨?_, fun _ => ?_⟩ <;> simp
      · exact histInv_of_eq rfl rfl ih
      · exact histInv_of_eq rfl rfl ih
  | undo s hr ih =>
    unfold handleUndo
    split_ifs with hcu
    · have hi : 0 < s.historyIndex := by simpa [canUndo] using hcu
      have hne : s.history ≠ [] := by
        intro hnil
        have := ih.1.mpr hnil
        omega
      obtain ⟨hlo, hhi⟩ := ih.2 hne
      unfold histInv
      dsimp only
      exact ⟨⟨fun hz => absurd hz (by omega), fun hz => absurd hz hne⟩,
        fun _ => ⟨by omega, by omega⟩⟩
    · exact ih
  | redo s hr ih =>
    unfold handleRedo
    split_ifs with hcr
    · have hi : s.historyIndex < (s.history.length : ℤ) - 1 := by
        simpa [canRedo] using hcr
      have hne : s.history ≠ [] := by
        intro hnil
        have h1 := ih.1.mpr hnil
        rw [hnil] at hi
        simp at hi
        omega
      obtain ⟨hlo, hhi⟩ := ih.2 hne
      unfold histInv
      dsimp only
      exact ⟨⟨fun hz => absurd hz (by omega), fun hz => absurd hz hne⟩,
        fun _ => ⟨by omega, by omega⟩⟩
    · exact ih
  | generate s outcome hr ih =>
    refine histInv_of_eq ?_ ?_ ih <;>
      (unfold handleGenerateClick
       split_ifs
       · rfl
       · cases outcome with
         | success parts => cases hfi : findInlineFromEnd parts <;> simp [hfi]
         | failure b m => rfl)
  | reset s hr ih => exact ⟨by simp [handleReset], fun hne => absurd rfl hne⟩
  | zoomButtons s delta hr ih => exact histInv_of_eq rfl rfl ih
  | scaleChange s v hr ih => exact histInv_of_eq rfl rfl ih
  | wheel s deltaY hr ih => exact histInv_of_eq rfl rfl ih
  | zoomReset s hr ih => exact histInv_of_eq rfl rfl ih
  | mouseDown s mx my onImage hr ih =>
    refine histInv_of_eq ?_ ?_ ih <;> (unfold handleMouseDown; split_ifs <;> rfl)
  | mouseMove s mx my hp hr ih => exact histInv_of_eq rfl rfl ih
  | mouseUp s hr ih => exact histInv_of_eq rfl rfl ih
  | setPrompt s p hr ih => exact histInv_of_eq rfl rfl ih

/-- C9 witness: the invariant at the initial reachable state. -/
theorem history_index_invariant_witness : histInv initialState :=
  history_index_invariant initialState Reachable.init

theorem getD_set_self (l : List ℕ) (i v : ℕ) (h : i < l.length) :
    (l.set i v).getD i 0 = v := by
  simp [List.getD_eq_getElem?_getD, List.getElem?_set_self, h]

theorem getD_set_ne (l : List ℕ) (i j v : ℕ) (h : i ≠ j) :
    (l.set i v).getD j 0 = l.getD j 0 := by
  simp [List.getD_eq_getElem?_getD, List.getElem?_set_ne h]

theorem posterizeLoop_step (data : List ℕ) (i : ℕ) (h : i < data.length) :
    posterizeLoop data i = posterizeLoop (writeRGB data i) (i + 4) := by
  rw [posterizeLoop, dif_pos h]
  simp only [readByte, writeRGB]
  rw [getD_set_ne data i (i + 1) (posterizeChannel (data.getD i 0)) (by omega)]
  rw [getD_set_ne (data.set i (posterizeChannel (data.getD i 0))) (i + 1) (i + 2)
      (posterizeChannel (data.getD (i + 1) 0)) (by omega)]
  rw [getD_set_ne data i (i + 2) (posterizeChannel (data.getD i 0)) (by omega)]

theorem writeRGB_length (data : List ℕ) (i : ℕ) :
    (writeRGB data i).length = data.length := by
  simp [writeRGB]

theorem writeRGB_getD_ne (data : List ℕ) (i j : ℕ) (h0 : j ≠ i) (h1 : j ≠ i + 1)
    (h2 : j ≠ i + 2) : (writeRGB data i).getD j 0 = data.getD j 0 := by
  unfold writeRGB
  rw [getD_set_ne _ _ _ _ (Ne.symm h2), getD_set_ne _ _ _ _ (Ne.symm h1),
    getD_set_ne _ _ _ _ (Ne.symm h0)]

theorem writeRGB_getD_r (data : List ℕ) (i : ℕ) (h : i < data.length) :
    (writeRGB data i).getD i 0 = posterizeChannel (data.getD i 0) := by
  unfold writeRGB
  rw [getD_set_ne _ _ _ _ (by omega), getD_set_ne _ _ _ _ (by omega),
    getD_set_self _ _ _ h]

theorem writeRGB_getD_g (data : List ℕ) (i : ℕ) (h : i + 1 < data.length) :
    (writeRGB data i).getD (i + 1) 0 = posterizeChannel (data.getD (i + 1) 0) := by
  unfold writeRGB
  rw [getD_set_ne _ _ _ _ (by omega), getD_set_self _ _ _ (by simpa using h)]

theorem writeRGB_getD_b (data : List ℕ) (i : ℕ) (h : i + 2 < data.length) :
    (writeRGB data i).getD (i + 2) 0 = posterizeChannel (data.getD (i + 2) 0) := by
  unfold writeRGB
  rw [getD_set_self _ _ _ (by simpa using h)]

theorem posterizeLoop_length_aux :
    ∀ (fuel : ℕ) (data : List ℕ) (i : ℕ), data.length - i = fuel →
      (posterizeLoop data i).length = data.length := by
  intro fuel
  induction fuel using Nat.strong_induction_on with
  | _ fuel IH =>
    intro data i hfuel
    by_cases h : i < data.length
    · rw [posterizeLoop_step data i h]
      rw [IH ((writeRGB data i).length - (i + 4))
        (by rw [writeRGB_length]; omega) (writeRGB data i) (i + 4) rfl]
      exact writeRGB_length data i
    · rw [posterizeLoop, dif_neg h]

theorem posterizeLoop_length (data : List ℕ) (i : ℕ) :
    (posterizeLoop data i).length = data.length :=
  posterizeLoop_length_aux (data.length - i) data i rfl

theorem posterizeLoop_getD_aux :
    ∀ (fuel : ℕ) (data : List ℕ) (i : ℕ), data.length - i = fuel → i % 4 = 0 →
      ∀ j, j < data.length →
        (posterizeLoop data i).getD j 0 =
          if j < i ∨ j % 4 = 3 then data.getD j 0
          else posterizeChannel (data.getD j 0) := by
  intro fuel
  induction fuel using Nat.strong_induction_on with
  | _ fuel IH =>
    intro data i hfuel hi j hj
    by_cases h : i < data.length
    · rw [posterizeLoop_step data i h]
      rw [IH ((writeRGB data i).length - (i + 4))
        (by rw [writeRGB_length]; omega) (writeRGB data i) (i + 4) rfl (by omega)
        j (by rw [writeRGB_length]; exact hj)]
      by_cases hj3 : j % 4 = 3
      · rw [if_pos (show j < i + 4 ∨ j % 4 = 3 from Or.inr hj3),
          if_pos (show j < i ∨ j % 4 = 3 from Or.inr hj3),
          writeRGB_getD_ne data i j (by omega) (by omega) (by omega)]
      · by_cases hjlt : j < i
        · rw [if_pos (show j < i + 4 ∨ j % 4 = 3 from Or.inl (by omega)),
            if_pos (show j < i ∨ j % 4 = 3 from Or.inl hjlt),
            writeRGB_getD_ne data i j (by omega) (by omega) (by omega)]
        · rw [if_neg (show ¬(j < i ∨ j % 4 = 3) from by omega)]
          by_cases hj4 : j < i + 4
          · rw [if_pos (show j < i + 4 ∨ j % 4 = 3 from Or.inl hj4)]
            have hcase : j = i ∨ j = i + 1 ∨ j = i + 2 := by omega
            rcases hcase with hc | hc | hc
            · rw [hc, writeRGB_getD_r data i (hc ▸ hj)]
            · rw [hc, writeRGB_getD_g data i (hc ▸ hj)]
            · rw [hc, writeRGB_getD_b data i (hc ▸ hj)]
          · rw [if_neg (show ¬(j < i + 4 ∨ j % 4 = 3) from by omega),
              writeRGB_getD_ne data i j (by omega) (by omega) (by omega)]
    · rw [posterizeLoop, dif_neg h,
        if_pos (show j < i ∨ j % 4 = 3 from Or.inl (by omega))]

theorem posterizeLoop_getD (data : List ℕ) (i : ℕ) (hi : i % 4 = 0) (j : ℕ)
    (hj : j < data.length) :
    (posterizeLoop data i).getD j 0 =
      if j < i ∨ j % 4 = 3 then data.getD j 0
      else posterizeChannel (data.getD j 0) :=
  posterizeLoop_getD_aux (data.length - i) data i rfl hi j hj

/-- C2: the posterize pass, with `levels = 4` and `step = 255 / (levels - 1)`,
replaces every red, green and blue byte (indices not congruent to 3 mod 4)
by `Math.round(channel / step) * step`, leaves every alpha byte (each
fourth byte) unchanged, and preserves the buffer length. -/
theorem posterize_quantizes (data : List ℕ) (j : ℕ) (hj : j < data.length) :
    (posterize data).length = data.length ∧
    (j % 4 ≠ 3 → (posterize data).getD j 0 = posterizeChannel (data.getD j 0)) ∧
    (j % 4 = 3 → (posterize data).getD j 0 = data.getD j 0) := by
  refine ⟨posterizeLoop_length data 0, ?_, ?_⟩
  · intro h3
    rw [posterize, posterizeLoop_getD data 0 rfl j hj, if_neg (by omega)]
  · intro h3
    rw [posterize, posterizeLoop_getD data 0 rfl j hj, if_pos (Or.inr h3)]

/-- C2 witness: instantiation at a concrete four-byte pixel. -/
theorem posterize_quantizes_witness :
    (posterize [255, 100, 42, 7]).length = 4 ∧
    (posterize [255, 100, 42, 7]).getD 1 0 = posterizeChannel 100 ∧
    (posterize [255, 100, 42, 7]).getD 3 0 = 7 :=
  ⟨(posterize_quantizes [255, 100, 42, 7] 1 (by decide)).1,
   (posterize_quantizes [255, 100, 42, 7] 1 (by decide)).2.1 (by decide),
   (posterize_quantizes [255, 100, 42, 7] 3 (by decide)).2.2 (by decide)⟩

end ImageEditor
